import Mathlib

/-!
Verification of the webstor S3 connection library (s3conn.cpp).

Shallow embedding of the pure logic of the library: request signing,
header construction, response classification, the incremental SAX
response parsing hooks, binary-load accounting, completion special
cases, the waitAny scan, and the error-summary wrapper.  Machine
integers (size_t) are modelled as Nat with explicit reduction
modulo 2^64 where overflow matters.
-/

namespace Webstor

/-- Modulus of the C size_t type (64-bit build). -/
def SIZE_T_MOD : Nat := 2 ^ 64

/-! ### uitoa (s3conn.cpp lines 100-123)

The source writes the digits of `val` into `buf` least-significant
first with a do-while loop, NUL-terminates, then reverses the buffer
in place and returns `buf`.  We model the resulting C string as a
Lean `String`. -/

/-- The digit characters produced by the do-while loop of `uitoa`,
least significant digit first. -/
def uitoaRev (val : Nat) : List Char :=
  if h : val / 10 = 0 then [Char.ofNat (48 + val % 10)]
  else Char.ofNat (48 + val % 10) :: uitoaRev (val / 10)
termination_by val
decreasing_by
  exact Nat.div_lt_self (Nat.pos_of_ne_zero (fun hv => h (by simp [hv]))) (by decide)

/-- `uitoa` from s3conn.cpp: decimal formatting of an unsigned value.
The returned string is the loop digits reversed into reading order. -/
def uitoa (val : Nat) : String :=
  String.mk (uitoaRev val).reverse

/-- Base-10 value denoted by a digit-character list in reading order. -/
def digitsVal (cs : List Char) : Nat :=
  cs.foldl (fun a c => 10 * a + (c.toNat - 48)) 0

theorem uitoaRev_eq_base (v : Nat) (h : v / 10 = 0) :
    uitoaRev v = [Char.ofNat (48 + v % 10)] := by
  rw [uitoaRev, dif_pos h]

theorem uitoaRev_eq_step (v : Nat) (h : v / 10 ≠ 0) :
    uitoaRev v = Char.ofNat (48 + v % 10) :: uitoaRev (v / 10) := by
  rw [uitoaRev, dif_neg h]

theorem char_ofNat_digit_toNat (d : Nat) (h : d < 10) :
    (Char.ofNat (48 + d)).toNat = 48 + d := by
  interval_cases d <;> decide

theorem char_ofNat_digit_eq_zero (d : Nat) (h : d < 10) :
    (Char.ofNat (48 + d) = '0') ↔ d = 0 := by
  interval_cases d <;> decide

theorem uitoaRev_ne_nil (v : Nat) : uitoaRev v ≠ [] := by
  by_cases h : v / 10 = 0
  · rw [uitoaRev_eq_base v h]; simp
  · rw [uitoaRev_eq_step v h]; simp

theorem uitoaRev_digits (v : Nat) :
    ∀ c ∈ uitoaRev v, 48 ≤ c.toNat ∧ c.toNat ≤ 57 := by
  induction v using Nat.strong_induction_on with
  | _ v ih =>
    intro c hc
    have hm : v % 10 < 10 := Nat.mod_lt _ (by decide)
    have hd := char_ofNat_digit_toNat (v % 10) hm
    by_cases h : v / 10 = 0
    · rw [uitoaRev_eq_base v h] at hc
      simp at hc
      subst hc
      omega
    · rw [uitoaRev_eq_step v h] at hc
      simp at hc
      rcases hc with hc | hc
      · subst hc; omega
      · exact ih (v / 10)
          (Nat.div_lt_self (Nat.pos_of_ne_zero (fun hv => h (by simp [hv]))) (by decide)) c hc

theorem digitsVal_append (l : List Char) (c : Char) :
    digitsVal (l ++ [c]) = 10 * digitsVal l + (c.toNat - 48) := by
  simp [digitsVal, List.foldl_append]

theorem uitoaRev_val (v : Nat) : digitsVal (uitoaRev v).reverse = v := by
  induction v using Nat.strong_induction_on with
  | _ v ih =>
    have hm : v % 10 < 10 := Nat.mod_lt _ (by decide)
    have hd := char_ofNat_digit_toNat (v % 10) hm
    by_cases h : v / 10 = 0
    · rw [uitoaRev_eq_base v h]
      simp [digitsVal, hd]
      omega
    · rw [uitoaRev_eq_step v h, List.reverse_cons, digitsVal_append,
        ih (v / 10)
          (Nat.div_lt_self (Nat.pos_of_ne_zero (fun hv => h (by simp [hv]))) (by decide)), hd]
      omega

theorem uitoaRev_getLast_zero (v : Nat) :
    ((uitoaRev v).getLast (uitoaRev_ne_nil v) = '0') ↔ v = 0 := by
  induction v using Nat.strong_induction_on with
  | _ v ih =>
    have hm : v % 10 < 10 := Nat.mod_lt _ (by decide)
    by_cases h : v / 10 = 0
    · rw [List.getLast_congr _ (by simp) (uitoaRev_eq_base v h)]
      show (Char.ofNat (48 + v % 10) = '0') ↔ v = 0
      rw [char_ofNat_digit_eq_zero (v % 10) hm]
      omega
    · rw [List.getLast_congr _ (by simp) (uitoaRev_eq_step v h),
        List.getLast_cons (uitoaRev_ne_nil (v / 10)),
        ih (v / 10)
          (Nat.div_lt_self (Nat.pos_of_ne_zero (fun hv => h (by simp [hv]))) (by decide))]
      constructor
      · intro hz; exact absurd hz h
      · intro hv; omega

/-- C10: for every unsigned value v, uitoa produces the standard base-10
decimal representation: all characters are digits, the denoted value is v,
the leading character is a zero exactly when v = 0, and v = 0 renders
as "0".  (NUL-termination and returning buf are C-string plumbing
represented by returning the Lean string itself.) -/
theorem c10_uitoa_decimal (v : Nat) :
    uitoa 0 = "0" ∧
    (∀ c ∈ (uitoa v).data, 48 ≤ c.toNat ∧ c.toNat ≤ 57) ∧
    digitsVal (uitoa v).data = v ∧
    ((uitoa v).data.head? = some '0' ↔ v = 0) := by
  refine ⟨?_, ?_, ?_, ?_⟩
  · rw [uitoa, uitoaRev_eq_base 0 (by decide)]
    decide
  · intro c hc
    have hc2 : c ∈ (uitoaRev v).reverse := hc
    exact uitoaRev_digits v c (List.mem_reverse.mp hc2)
  · simpa [uitoa] using uitoaRev_val v
  · have hne : (uitoaRev v).reverse ≠ [] := by
      simpa using uitoaRev_ne_nil v
    rw [show (uitoa v).data = (uitoaRev v).reverse from rfl]
    rw [List.head?_eq_head hne]
    rw [List.head_reverse]
    constructor
    · intro hh
      have := (uitoaRev_getLast_zero v).mp (by simpa using hh)
      exact this
    · intro hv
      have := (uitoaRev_getLast_zero v).mpr hv
      simp [this]

/-! ### AWS v2 signing (s3conn.cpp lines 383-464)

`calcSignature` builds the string-to-sign and the Authorization header
value.  The HMAC-SHA1 and base64 primitives come from OpenSSL (outside
this repository); they are abstracted as function parameters, exactly
as the source calls them: `HMAC(EVP_sha1, secKey, toSign)` followed by
`append64Encoded` with `BIO_FLAGS_BASE64_NO_NL` (no line breaks). -/

/-- `appendSigHeader` from s3conn.cpp: appends "key:" when a key is
given, then the value (empty when absent), then a newline. -/
def appendSigHeader (key : Option String) (value : Option String) : String :=
  (match key with
   | some k => k ++ ":"
   | none => "") ++
  (match value with
   | some v => v
   | none => "") ++ "\n"

/-- The string-to-sign constructed by `calcSignature`, mirroring the
append sequence of the source. -/
def calcStringToSign (action : String) (contentMd5 contentType : Option String)
    (date : String) (makePublic srvEncrypt : Bool)
    (bucketName key : Option String) (isWalrus : Bool) : String :=
  action ++ "\n"
  ++ appendSigHeader none contentMd5
  ++ appendSigHeader none contentType
  ++ appendSigHeader none (some date)
  ++ (if makePublic then appendSigHeader (some "x-amz-acl") (some "public-read") else "")
  ++ (if srvEncrypt then appendSigHeader (some "x-amz-server-side-encryption") (some "AES256") else "")
  ++ (if isWalrus then "/services/Walrus" else "")
  ++ (match bucketName with
      | some b => "/" ++ b
      | none => "")
  ++ (match key with
      | some k => "/" ++ k
      | none => "")

/-- `calcSignature` from s3conn.cpp: the Authorization header value.
`hmacSha1 secret message` stands for the OpenSSL HMAC-SHA1 digest and
`base64NoNL` for base64 without line breaks. -/
def calcSignature (hmacSha1 : String → String → List Nat)
    (base64NoNL : List Nat → String)
    (accKey secKey : String) (contentMd5 contentType : Option String)
    (date : String) (makePublic srvEncrypt : Bool) (action : String)
    (bucketName key : Option String) (isWalrus : Bool) : String :=
  " AWS " ++ accKey ++ ":"
  ++ base64NoNL (hmacSha1 secKey
       (calcStringToSign action contentMd5 contentType date makePublic srvEncrypt
         bucketName key isWalrus))

/-- The string-to-sign as the specification words it: verb, Content-MD5
(empty if absent), Content-Type (empty if absent), date, each followed
by a single newline; the ACL and encryption lines when the flags are
set; then the canonical resource. -/
def specStringToSign (verb : String) (contentMd5 contentType : Option String)
    (date : String) (makePublic serverSideEncrypt : Bool)
    (bucket key : Option String) (isWalrus : Bool) : String :=
  verb ++ "\n"
  ++ (contentMd5.getD "" ++ "\n")
  ++ (contentType.getD "" ++ "\n")
  ++ (date ++ "\n")
  ++ (if makePublic then "x-amz-acl:public-read" ++ "\n" else "")
  ++ (if serverSideEncrypt then "x-amz-server-side-encryption:AES256" ++ "\n" else "")
  ++ (if isWalrus then "/services/Walrus" else "")
  ++ (match bucket with
      | some b => "/" ++ b
      | none => "")
  ++ (match key with
      | some k => "/" ++ k
      | none => "")

theorem appendSigHeader_none (v : Option String) :
    appendSigHeader none v = v.getD "" ++ "\n" := by
  cases v <;> (apply String.ext; simp [appendSigHeader, String.data_append])

theorem appendSigHeader_some_date (date : String) :
    appendSigHeader none (some date) = date ++ "\n" := by
  apply String.ext
  simp [appendSigHeader, String.data_append]

theorem appendSigHeader_acl :
    appendSigHeader (some "x-amz-acl") (some "public-read")
      = "x-amz-acl:public-read" ++ "\n" := by
  decide

theorem appendSigHeader_sse :
    appendSigHeader (some "x-amz-server-side-encryption") (some "AES256")
      = "x-amz-server-side-encryption:AES256" ++ "\n" := by
  decide

theorem calcStringToSign_eq_spec (action : String)
    (contentMd5 contentType : Option String) (date : String)
    (makePublic srvEncrypt : Bool) (bucketName key : Option String)
    (isWalrus : Bool) :
    calcStringToSign action contentMd5 contentType date makePublic srvEncrypt
        bucketName key isWalrus
      = specStringToSign action contentMd5 contentType date makePublic srvEncrypt
        bucketName key isWalrus := by
  simp only [calcStringToSign, specStringToSign, appendSigHeader_none,
    appendSigHeader_some_date, appendSigHeader_acl, appendSigHeader_sse,
    Option.getD_some]

/-- C1: the Authorization header value produced for any request equals
" AWS " + access key + ":" + base64(HMAC-SHA1(secret, string-to-sign)),
leading space preserved and no line breaks in the base64 (the source
sets BIO_FLAGS_BASE64_NO_NL), where the string-to-sign is exactly the
sequence the specification describes: verb, Content-MD5 (empty if
absent), Content-Type (empty if absent), date, each newline-terminated,
the optional acl and encryption lines, then the canonical resource
(/services/Walrus when walrus, /bucket when set, /key when set). -/
theorem c1_calcSignature_authorization (hmacSha1 : String → String → List Nat)
    (base64NoNL : List Nat → String) (accKey secKey : String)
    (contentMd5 contentType : Option String) (date : String)
    (makePublic srvEncrypt : Bool) (action : String)
    (bucketName key : Option String) (isWalrus : Bool) :
    calcSignature hmacSha1 base64NoNL accKey secKey contentMd5 contentType date
        makePublic srvEncrypt action bucketName key isWalrus
      = " AWS " ++ accKey ++ ":"
        ++ base64NoNL (hmacSha1 secKey
            (specStringToSign action contentMd5 contentType date makePublic
              srvEncrypt bucketName key isWalrus)) := by
  rw [calcSignature, calcStringToSign_eq_spec]

/-! ### Response details and classification (s3conn.cpp lines 693-740)

`S3ResponseDetails` with the constructor defaults of the source:
status UNEXPECTED, httpContentLength = size_t(-1), isTruncated false,
loadedContentLength 0. -/

inductive S3_RESPONSE_STATUS where
  | unexpected
  | success
  | failureWithDetails
  | httpFailure
  | httpResourceNotFound
  | httpOrAwsFailure
deriving DecidableEq, Repr

structure S3ResponseDetails where
  status : S3_RESPONSE_STATUS := .unexpected
  url : String := ""
  name : String := ""
  httpStatus : String := ""
  httpDate : String := ""
  httpContentLength : Nat := SIZE_T_MOD - 1
  httpContentType : String := ""
  amazonId : String := ""
  requestId : String := ""
  etag : String := ""
  errorCode : String := ""
  errorMessage : String := ""
  hostId : String := ""
  isTruncated : Bool := false
  uploadId : String := ""
  loadedContentLength : Nat := 0
deriving DecidableEq, Repr

/-- The error taxonomy raised by `handleErrors` and `waitAny`
(S3Exception with the errUnexpected / errHTTPResourceNotFound /
errHTTP / errAWS / errTooManyConnetions format strings). -/
inductive S3Error where
  | unexpected
  | httpResourceNotFound (url : String)
  | http (httpStatus : String)
  | aws (message code requestId : String)
  | tooManyConnections
deriving DecidableEq, Repr

/-- `handleErrors` from s3conn.cpp lines 2165-2205: returns normally on
SUCCESS and otherwise throws from the taxonomy. -/
def handleErrors (d : S3ResponseDetails) : Except S3Error Unit :=
  match d.status with
  | .success => .ok ()
  | .unexpected => .error .unexpected
  | .httpResourceNotFound => .error (.httpResourceNotFound d.url)
  | .httpFailure => .error (.http d.httpStatus)
  | .httpOrAwsFailure => .error (.http d.httpStatus)
  | .failureWithDetails => .error (.aws d.errorMessage d.errorCode d.requestId)

/-- Reinterpretation of a size_t value as a signed Int64, used when the
size_t loadedContentLength (set to size_t(-1)) is surfaced through the
Int64 loaded_content_length response field. -/
def toInt64 (n : Nat) : Int :=
  if n % SIZE_T_MOD < 2 ^ 63 then (n % SIZE_T_MOD : Nat)
  else (n % SIZE_T_MOD : Nat) - (SIZE_T_MOD : Int)

structure S3GetResponse where
  loadedContentLength : Int := 0
  isTruncated : Bool := false
  etag : String := ""
deriving DecidableEq, Repr

/-- The NoSuchKey/NoSuchEntity success override of `completeGet`
(s3conn.cpp lines 2759-2768), applied to the response details before
error handling. -/
def completeGetAdjust (d : S3ResponseDetails) : S3ResponseDetails :=
  if d.status = .failureWithDetails ∧
      (d.errorCode = "NoSuchKey" ∨ d.errorCode = "NoSuchEntity") then
    { d with status := .success, loadedContentLength := SIZE_T_MOD - 1 }
  else d

/-- `completeGet` (file-static, s3conn.cpp lines 2756-2780): converts a
FailureWithDetails response whose error code is NoSuchKey (Amazon) or
NoSuchEntity (Walrus) into success with loadedContentLength = size_t(-1),
then runs the error handler and fills the response. -/
def completeGet (d : S3ResponseDetails) : Except S3Error S3GetResponse :=
  match handleErrors (completeGetAdjust d) with
  | .error e => .error e
  | .ok () =>
      .ok { loadedContentLength := toInt64 (completeGetAdjust d).loadedContentLength,
            isTruncated := (completeGetAdjust d).isTruncated,
            etag := (completeGetAdjust d).etag }

/-- The Walrus-motivated NoSuchEntity success override of `completeDel`
(s3conn.cpp lines 3023-3029). -/
def completeDelAdjust (d : S3ResponseDetails) : S3ResponseDetails :=
  if d.status = .failureWithDetails ∧ d.errorCode = "NoSuchEntity" then
    { d with status := .success }
  else d

/-- `completeDel` (file-static, s3conn.cpp lines 3020-3032): converts a
FailureWithDetails response whose error code is NoSuchEntity into
success, then runs the error handler.  The conversion does not consult
any Walrus flag; the flag is not even an input of the function. -/
def completeDel (d : S3ResponseDetails) : Except S3Error Unit :=
  handleErrors (completeDelAdjust d)

theorem toInt64_size_t_neg_one : toInt64 (SIZE_T_MOD - 1) = -1 := by
  rw [toInt64]
  norm_num [SIZE_T_MOD]

/-- C3: a GET whose response was classified FailureWithDetails with
parsed error code NoSuchKey (Amazon) or NoSuchEntity (Walrus) completes
successfully (no error raised) and returns loaded_content_length = -1
(size_t(-1) read back as a signed 64-bit value). -/
theorem c3_missing_key_get (d : S3ResponseDetails)
    (hs : d.status = .failureWithDetails)
    (hc : d.errorCode = "NoSuchKey" ∨ d.errorCode = "NoSuchEntity") :
    completeGet d
      = .ok { loadedContentLength := -1, isTruncated := d.isTruncated,
              etag := d.etag } := by
  have ha : completeGetAdjust d
      = { d with status := .success, loadedContentLength := SIZE_T_MOD - 1 } := by
    unfold completeGetAdjust
    exact if_pos ⟨hs, hc⟩
  unfold completeGet
  rw [ha]
  simp [handleErrors, toInt64_size_t_neg_one]

/-- Witness for C3 at a concrete FailureWithDetails NoSuchKey response. -/
theorem c3_missing_key_get_witness :
    completeGet { status := .failureWithDetails, errorCode := "NoSuchKey" }
      = .ok { loadedContentLength := -1, isTruncated := false, etag := "" } :=
  c3_missing_key_get { status := .failureWithDetails, errorCode := "NoSuchKey" }
    rfl (Or.inl rfl)

/-- C9: `completeDel` converts a FailureWithDetails response with error
code NoSuchEntity into success regardless of any Walrus flag (the flag
is not an input of the conversion), so the delete returns without
raising.  The spec promises this only for Walrus. -/
theorem c9_del_noSuchEntity (d : S3ResponseDetails)
    (hs : d.status = .failureWithDetails)
    (hc : d.errorCode = "NoSuchEntity") :
    completeDel d = .ok () := by
  have ha : completeDelAdjust d = { d with status := .success } := by
    unfold completeDelAdjust
    exact if_pos ⟨hs, hc⟩
  unfold completeDel
  rw [ha]
  rfl

/-- Witness for C9 at a concrete FailureWithDetails NoSuchEntity
response. -/
theorem c9_del_noSuchEntity_witness :
    completeDel { status := .failureWithDetails, errorCode := "NoSuchEntity" }
      = .ok () :=
  c9_del_noSuchEntity { status := .failureWithDetails, errorCode := "NoSuchEntity" }
    rfl rfl

/-! ### Binary body loading (s3conn.cpp lines 1408-1436 and 603-637)

`handleBinaryLoad_` receives each body chunk from the HTTP engine,
passes it to the sink (`onLoadBinary`), adds the count the sink
returned to `loadedContentLength`, and sets `isTruncated` whenever the
sink accepted fewer bytes than offered.  A chunk is modelled as the
pair (offered, accepted) where accepted is the value the sink
returned. -/

structure LoadState where
  loadedContentLength : Nat := 0
  isTruncated : Bool := false
deriving DecidableEq, Repr

/-- One call of `S3Request::handleBinaryLoad_` on a chunk of
`offered = count * elementSize` bytes for which the sink returned
`accepted`. -/
def handleBinaryLoadStep (st : LoadState) (offered accepted : Nat) : LoadState :=
  { loadedContentLength := st.loadedContentLength + accepted,
    isTruncated := if accepted < offered then true else st.isTruncated }

/-- All chunk deliveries of one GET response body, in order. -/
def runBinaryLoad (st : LoadState) (chunks : List (Nat × Nat)) : LoadState :=
  chunks.foldl (fun s c => handleBinaryLoadStep s c.1 c.2) st

/-- `S3GetResponseBufferLoader::onLoad` (s3conn.cpp lines 620-637): the
built-in sink wrapping a fixed buffer with `left` bytes remaining
accepts min(chunkSize, left) bytes (0 once the buffer is full). -/
def bufferLoaderOnLoad (left chunkSize : Nat) : Nat :=
  if left = 0 then 0 else min chunkSize left

theorem runBinaryLoad_loaded (st : LoadState) (chunks : List (Nat × Nat)) :
    (runBinaryLoad st chunks).loadedContentLength
      = st.loadedContentLength + (chunks.map Prod.snd).sum := by
  induction chunks generalizing st with
  | nil => simp [runBinaryLoad]
  | cons c cs ih =>
    simp only [runBinaryLoad, List.foldl_cons, List.map_cons, List.sum_cons]
    rw [show List.foldl (fun s c => handleBinaryLoadStep s c.1 c.2)
        (handleBinaryLoadStep st c.1 c.2) cs
      = runBinaryLoad (handleBinaryLoadStep st c.1 c.2) cs from rfl]
    rw [ih]
    simp [handleBinaryLoadStep]
    omega

theorem runBinaryLoad_truncated (st : LoadState) (chunks : List (Nat × Nat)) :
    ((runBinaryLoad st chunks).isTruncated = true
      ↔ (st.isTruncated = true ∨ ∃ c ∈ chunks, c.2 < c.1)) := by
  induction chunks generalizing st with
  | nil => simp [runBinaryLoad]
  | cons c cs ih =>
    simp only [runBinaryLoad, List.foldl_cons]
    rw [show List.foldl (fun s c => handleBinaryLoadStep s c.1 c.2)
        (handleBinaryLoadStep st c.1 c.2) cs
      = runBinaryLoad (handleBinaryLoadStep st c.1 c.2) cs from rfl]
    rw [ih]
    simp only [handleBinaryLoadStep]
    by_cases hlt : c.2 < c.1
    · simp [hlt]
    · simp [hlt]

/-- C2: over any sequence of body chunks of a GET, the final
loaded_content_length is exactly the sum of the counts the sink
returned; under the sink contract (accepted bytes never exceed offered
bytes, asserted by the source) and the transport bound (at most
Content-Length body bytes arrive), it does not exceed the HTTP
Content-Length; and is_truncated is set if and only if the sink
returned fewer bytes than offered on some chunk.  The initial state is
the S3ResponseDetails constructor state (0 loaded, not truncated). -/
theorem c2_binary_load_invariants (chunks : List (Nat × Nat)) (contentLength : Nat)
    (hsink : ∀ c ∈ chunks, c.2 ≤ c.1)
    (htransport : (chunks.map Prod.fst).sum ≤ contentLength) :
    (runBinaryLoad {} chunks).loadedContentLength = (chunks.map Prod.snd).sum ∧
    (runBinaryLoad {} chunks).loadedContentLength ≤ contentLength ∧
    ((runBinaryLoad {} chunks).isTruncated = true ↔ ∃ c ∈ chunks, c.2 < c.1) := by
  have hsum : (chunks.map Prod.snd).sum ≤ (chunks.map Prod.fst).sum :=
    List.sum_le_sum (fun c hc => hsink c hc)
  have h0 : (runBinaryLoad {} chunks).loadedContentLength
      = (chunks.map Prod.snd).sum := by
    rw [runBinaryLoad_loaded]
    simp
  refine ⟨h0, ?_, ?_⟩
  · rw [h0]
    omega
  · rw [runBinaryLoad_truncated {} chunks]
    simp

/-- Witness for C2: two chunks, the second truncated by the sink. -/
theorem c2_binary_load_invariants_witness :
    (runBinaryLoad {} [(5, 5), (3, 2)]).loadedContentLength
        = ([(5, 5), (3, 2)].map Prod.snd).sum ∧
    (runBinaryLoad {} [(5, 5), (3, 2)]).loadedContentLength ≤ 8 ∧
    ((runBinaryLoad {} [(5, 5), (3, 2)]).isTruncated = true
      ↔ ∃ c ∈ [(5, 5), (3, 2)], c.2 < c.1) :=
  c2_binary_load_invariants [(5, 5), (3, 2)] 8 (by decide) (by decide)

/-! ### Recognized XML response nodes (s3conn.cpp lines 899-950, 1041-1075)

The source keeps a sorted array of tag names and looks a tag up by
binary search, returning the matching enum value or
S3_RESPONSE_NODE_LAST for an unknown tag.  Over a strictly sorted
array, binary search computes exactly the name-to-enum table below. -/

inductive S3_RESPONSE_NODE where
  | bucket
  | code
  | commonPrefixes
  | contents
  | creationDate
  | etag
  | error
  | hostId
  | isTruncated
  | key
  | lastModified
  | message
  | name
  | nextMarker
  | prefixNode
  | requestId
  | size
  | upload
  | uploadId
  | last
deriving DecidableEq, Repr

/-- `getResponseNode`: tag-name lookup over the sorted tag table. -/
def getResponseNode (nodeName : String) : S3_RESPONSE_NODE :=
  if nodeName = "Bucket" then .bucket
  else if nodeName = "Code" then .code
  else if nodeName = "CommonPrefixes" then .commonPrefixes
  else if nodeName = "Contents" then .contents
  else if nodeName = "CreationDate" then .creationDate
  else if nodeName = "ETag" then .etag
  else if nodeName = "Error" then .error
  else if nodeName = "HostId" then .hostId
  else if nodeName = "IsTruncated" then .isTruncated
  else if nodeName = "Key" then .key
  else if nodeName = "LastModified" then .lastModified
  else if nodeName = "Message" then .message
  else if nodeName = "Name" then .name
  else if nodeName = "NextMarker" then .nextMarker
  else if nodeName = "Prefix" then .prefixNode
  else if nodeName = "RequestId" then .requestId
  else if nodeName = "Size" then .size
  else if nodeName = "Upload" then .upload
  else if nodeName = "UploadId" then .uploadId
  else .last

/-! ### Base S3Request SAX handling (s3conn.cpp lines 1482-1570)

The request keeps a fixed stack of 8 recognized node ids
(`m_stack`, `m_stackTop`).  We model the stack as a list whose head is
the top element `m_stack[m_stackTop-1]`; the C index `m_stack[0]` is
the last list element.  Stack overflow and pops on an empty stack
raise the parser error (`throwXmlParserError`), modelled as
`Except.error ()`. -/

/-- An incremental SAX callback event delivered by libxml2. -/
inductive SaxEvent where
  | start (localName : String)
  | text (value : String)
  | endElem
deriving DecidableEq, Repr

/-- The common part of `S3Request::setXmlValueImpl` (lines 1499-1531):
with exactly the two-element stack [child, Error], assign the text to
the matching error-envelope field, and promote
HttpResourceNotFound/HttpOrAwsFailure to FailureWithDetails. -/
def errorEnvelopeAssign (stack : List S3_RESPONSE_NODE) (d : S3ResponseDetails)
    (value : String) : S3ResponseDetails :=
  if stack.length = 2 ∧ stack.get? 1 = some .error then
    let d :=
      match stack.head? with
      | some .code => { d with errorCode := value }
      | some .message => { d with errorMessage := value }
      | some .requestId => { d with requestId := value }
      | some .hostId => { d with hostId := value }
      | _ => d
    if d.status = .httpResourceNotFound ∨ d.status = .httpOrAwsFailure then
      { d with status := .failureWithDetails }
    else d
  else d

/-- State of a plain `S3Request` (the GET/PUT/DELETE requests use the
default parser hooks, which always return true). -/
structure S3RequestState where
  stack : List S3_RESPONSE_NODE := []
  details : S3ResponseDetails := {}
deriving DecidableEq, Repr

/-- `S3Request::startXmlElementImpl` (lines 1482-1497) with the default
`onStartXmlElement` hook. -/
def baseStartXmlElementImpl (st : S3RequestState) (localName : String) :
    Except Unit S3RequestState :=
  if st.stack.length ≥ 8 then .error ()
  else .ok { st with stack := getResponseNode localName :: st.stack }

/-- `S3Request::setXmlValueImpl` (lines 1499-1537) with the default
`onSetXmlValue` hook. -/
def baseSetXmlValueImpl (st : S3RequestState) (value : String) : S3RequestState :=
  { st with details := errorEnvelopeAssign st.stack st.details value }

/-- `S3Request::endXmlElementImpl` (lines 1539-1549) with the default
`onEndXmlElement` hook. -/
def baseEndXmlElementImpl (st : S3RequestState) : Except Unit S3RequestState :=
  match st.stack with
  | [] => .error ()
  | _ :: rest => .ok { st with stack := rest }

def baseStep (st : S3RequestState) : SaxEvent → Except Unit S3RequestState
  | .start n => baseStartXmlElementImpl st n
  | .text v => .ok (baseSetXmlValueImpl st v)
  | .endElem => baseEndXmlElementImpl st

/-- Feeding a sequence of SAX events through the base request hooks. -/
def baseRun (st : S3RequestState) : List SaxEvent → Except Unit S3RequestState
  | [] => .ok st
  | e :: es =>
      match baseStep st e with
      | .error () => .error ()
      | .ok st2 => baseRun st2 es

/-! ### Payload handler selection (s3conn.cpp lines 1551-1570) -/

inductive PayloadHandler where
  | xml
  | binary
  | writeNoop
deriving DecidableEq, Repr

/-- `S3Request::setPayloadHandler`: on SUCCESS bind the XML or binary
loader according to `onExpectXmlPayload`; on any other status bind the
XML loader when the body is application/xml and Content-Length is not
zero (note the Content-Length default is size_t(-1), not zero); else
leave the default no-op write sink installed by the connection. -/
def setPayloadHandler (expectXmlPayload : Bool) (d : S3ResponseDetails) :
    PayloadHandler :=
  if d.status = .success then
    (if expectXmlPayload then .xml else .binary)
  else if d.httpContentLength ≠ 0 ∧ d.httpContentType = "application/xml" then
    .xml
  else .writeNoop

/-- The parser-creation condition of `S3Request::handleXmlPayload_`
(lines 1371-1374), with the operator precedence exactly as written in
the source: (!m_ctx && (SUCCESS || HTTP_RESOURSE_NOT_FOUND)) ||
HTTP_OR_AWS_FAILURE. -/
def xmlPayloadCreatesParser (hasCtx : Bool) (status : S3_RESPONSE_STATUS) : Bool :=
  (!hasCtx && (status == .success || status == .httpResourceNotFound))
    || status == .httpOrAwsFailure

/-- C4: for a response classified HttpResourceNotFound or
HttpOrAwsFailure whose Content-Type is application/xml and whose
Content-Length is not zero, the XML payload handler is bound (for any
request variant), the first body chunk creates the SAX parser, and a
text value delivered for any of the children Code, Message, RequestId,
HostId of an Error envelope populates the corresponding field and
upgrades the classification to FailureWithDetails. -/
theorem c4_error_payload_upgrade (d : S3ResponseDetails) (v : String)
    (expectXmlPayload : Bool)
    (hs : d.status = .httpResourceNotFound ∨ d.status = .httpOrAwsFailure)
    (hct : d.httpContentType = "application/xml")
    (hcl : d.httpContentLength ≠ 0) :
    setPayloadHandler expectXmlPayload d = .xml ∧
    xmlPayloadCreatesParser false d.status = true ∧
    (∀ child field,
      (child, field) ∈ [("Code", fun d2 : S3ResponseDetails => d2.errorCode),
        ("Message", fun d2 => d2.errorMessage),
        ("RequestId", fun d2 => d2.requestId),
        ("HostId", fun d2 => d2.hostId)] →
      ∃ st2, baseRun { details := d } [.start "Error", .start child, .text v]
          = .ok st2
        ∧ field st2.details = v
        ∧ st2.details.status = .failureWithDetails) := by
  have hns : d.status ≠ .success := by
    rcases hs with h | h <;> simp [h]
  refine ⟨?_, ?_, ?_⟩
  · rw [setPayloadHandler, if_neg hns, if_pos ⟨hcl, hct⟩]
  · rcases hs with h | h <;> simp [xmlPayloadCreatesParser, h]
  · intro child field hmem
    simp only [List.mem_cons, List.not_mem_nil, or_false] at hmem
    rcases hmem with h | h | h | h <;>
      (obtain ⟨hchild, hfield⟩ := Prod.mk.injEq .. ▸ h
       subst hchild
       refine ⟨_, rfl, ?_, ?_⟩ <;>
         (subst hfield
          rcases hs with hst | hst <;>
            simp [baseRun, baseStep, baseStartXmlElementImpl, baseSetXmlValueImpl,
              errorEnvelopeAssign, getResponseNode, hst]))

/-- Witness for C4 at a concrete HttpOrAwsFailure application/xml
response and the Code child. -/
theorem c4_error_payload_upgrade_witness :
    setPayloadHandler false
        { status := .httpOrAwsFailure, httpContentType := "application/xml",
          httpContentLength := 100 } = .xml ∧
    xmlPayloadCreatesParser false
        ({ status := .httpOrAwsFailure, httpContentType := "application/xml",
           httpContentLength := 100 } : S3ResponseDetails).status = true ∧
    (∀ child field,
      (child, field) ∈ [("Code", fun d2 : S3ResponseDetails => d2.errorCode),
        ("Message", fun d2 => d2.errorMessage),
        ("RequestId", fun d2 => d2.requestId),
        ("HostId", fun d2 => d2.hostId)] →
      ∃ st2, baseRun
          { details := { status := .httpOrAwsFailure,
                         httpContentType := "application/xml",
                         httpContentLength := 100 } }
          [.start "Error", .start child, .text "NoSuchKey"] = .ok st2
        ∧ field st2.details = "NoSuchKey"
        ∧ st2.details.status = .failureWithDetails) :=
  c4_error_payload_upgrade
    { status := .httpOrAwsFailure, httpContentType := "application/xml",
      httpContentLength := 100 }
    "NoSuchKey" false (Or.inr rfl) rfl (by norm_num)

/-! ### listObjects response parsing (s3conn.cpp lines 1800-1946)

`S3ListObjectsRequest` overrides the SAX hooks: Contents /
CommonPrefixes nodes produce objects, Key and ETag text is appended in
chunks, IsTruncated and NextMarker are assigned, and two Walrus quirks
are handled (deeper CommonPrefixes nesting, and prepending the echoed
request prefix to relative CommonPrefixes values).  The object sink is
modelled as the array collector `S3ObjectArray` of lines 2963-2978,
which accepts every object. -/

/-- `S3Object`.  Modelled from the spec: the struct and its `clear()`
are declared in the header (not under src/); the spec data model gives
key, last-modified, etag, size (int64, -1 denoting a synthetic
directory entry, which the parser never assigns for CommonPrefixes
entries) and is_dir, so `clear()` resets to these defaults. -/
structure S3Object where
  key : String := ""
  lastModified : String := ""
  etag : String := ""
  size : Int := -1
  isDir : Bool := false
deriving DecidableEq, Repr

/-- The libc `atoll` (external to the repository) on the digit strings
produced by the server. -/
def atoll (s : String) : Int :=
  s.toInt?.getD 0

/-- State of an `S3ListObjectsRequest` driving the array-collector
object sink.  `m_prefixStr` is the `m_prefix` member (initially empty,
assigned from the response-level Prefix element on Walrus). -/
structure ListObjectsState where
  stack : List S3_RESPONSE_NODE := []
  details : S3ResponseDetails := {}
  current : S3Object := {}
  m_isWalrus : Bool := false
  m_prefixStr : String := ""
  m_nextMarker : String := ""
  objects : List S3Object := []
deriving DecidableEq, Repr

/-- `S3ListObjectsRequest::isObjectNode` (lines 1923-1939). -/
def isObjectNode (st : ListObjectsState) : Bool :=
  if !st.m_isWalrus then
    st.stack.length == 2 &&
      (st.stack.head? == some .contents || st.stack.head? == some .commonPrefixes)
  else
    (st.stack.length == 3 && st.stack.head? == some .contents) ||
      (st.stack.length == 4 && st.stack.head? == some .prefixNode &&
        st.stack.get? 1 == some .commonPrefixes)

/-- `S3ListObjectsRequest::onSetXmlValue` (lines 1857-1921). -/
def listObjectsOnSetXmlValue (st : ListObjectsState) (value : String) :
    ListObjectsState :=
  if st.stack.length < 2 then st
  else
    match st.stack.head? with
    | some .isTruncated =>
        { st with details := { st.details with isTruncated := value == "true" } }
    | some .key =>
        { st with current := { st.current with key := st.current.key ++ value } }
    | some .lastModified =>
        { st with current := { st.current with lastModified := value } }
    | some .etag =>
        if value = "\"" then st
        else { st with current := { st.current with etag := st.current.etag ++ value } }
    | some .size =>
        { st with current := { st.current with size := atoll value } }
    | some .prefixNode =>
        if st.stack.get? 1 = some .commonPrefixes then
          let cur :=
            if st.m_isWalrus then
              { st.current with key := st.current.key ++ st.m_prefixStr }
            else st.current
          { st with current := { cur with key := cur.key ++ value, isDir := true } }
        else if st.m_isWalrus then
          { st with m_prefixStr := value }
        else st
    | some .nextMarker =>
        { st with m_nextMarker := value }
    | _ => st

/-- `S3ListObjectsRequest::nextMarker` (line 1806): the non-empty
NextMarker value if one was parsed, else the last key seen. -/
def nextMarker (st : ListObjectsState) : String :=
  if st.m_nextMarker.isEmpty then st.current.key else st.m_nextMarker

/-- `startXmlElementImpl` with the listObjects `onStartXmlElement` hook
(lines 1835-1844): push the node, then clear the current object when
entering an object node. -/
def listObjectsStartXmlElementImpl (st : ListObjectsState) (localName : String) :
    Except Unit ListObjectsState :=
  if st.stack.length ≥ 8 then .error ()
  else
    let st2 := { st with stack := getResponseNode localName :: st.stack }
    .ok (if isObjectNode st2 then { st2 with current := {} } else st2)

/-- `setXmlValueImpl` for listObjects: common error-envelope handling
followed by the variant hook. -/
def listObjectsSetXmlValueImpl (st : ListObjectsState) (value : String) :
    ListObjectsState :=
  let st2 := { st with details := errorEnvelopeAssign st.stack st.details value }
  listObjectsOnSetXmlValue st2 value

/-- `endXmlElementImpl` with the listObjects `onEndXmlElement` hook
(lines 1846-1855): emit the current object into the sink when leaving
an object node (the sink still sees the node on the stack), then pop. -/
def listObjectsEndXmlElementImpl (st : ListObjectsState) :
    Except Unit ListObjectsState :=
  match st.stack with
  | [] => .error ()
  | _ :: rest =>
      let st2 := if isObjectNode st then { st with objects := st.objects ++ [st.current] } else st
      .ok { st2 with stack := rest }

def listObjectsStep (st : ListObjectsState) : SaxEvent → Except Unit ListObjectsState
  | .start n => listObjectsStartXmlElementImpl st n
  | .text v => .ok (listObjectsSetXmlValueImpl st v)
  | .endElem => listObjectsEndXmlElementImpl st

/-- Feeding a sequence of SAX events through the listObjects hooks. -/
def listObjectsRun (st : ListObjectsState) :
    List SaxEvent → Except Unit ListObjectsState
  | [] => .ok st
  | e :: es =>
      match listObjectsStep st e with
      | .error () => .error ()
      | .ok st2 => listObjectsRun st2 es

/-- A Walrus list response carrying a NextMarker element and a final
key zzz (stated as raw SAX events; the Contents node sits at depth 3 on
Walrus). -/
def c5WalrusEvents : List SaxEvent :=
  [.start "ListBucketResult", .start "NextMarker", .text "MK", .endElem,
   .start "ListEntries",
   .start "Contents", .start "Key", .text "zzz", .endElem, .endElem,
   .endElem, .endElem]

/-- C5 counterexample: on a Walrus connection, a response containing a
non-empty NextMarker element does NOT fall back to the last key seen:
the marker returned is the NextMarker value MK although the last key
seen is zzz.  The claim "for a Walrus connection it is always the last
key seen" is therefore false. -/
theorem c5_nextMarker_counterexample :
    ((listObjectsRun { m_isWalrus := true } c5WalrusEvents).map nextMarker
        = .ok "MK") ∧
    ((listObjectsRun { m_isWalrus := true } c5WalrusEvents).map
        (fun st => st.current.key) = .ok "zzz") ∧
    ("MK" : String) ≠ "zzz" := by
  refine ⟨?_, ?_, by decide⟩ <;> rfl

theorem listObjectsRun_append (st : ListObjectsState) (l1 l2 : List SaxEvent) :
    listObjectsRun st (l1 ++ l2)
      = match listObjectsRun st l1 with
        | .error () => .error ()
        | .ok st1 => listObjectsRun st1 l2 := by
  induction l1 generalizing st with
  | nil => simp [listObjectsRun]
  | cons e es ih =>
    simp only [List.cons_append, listObjectsRun]
    cases listObjectsStep st e with
    | error u => cases u; rfl
    | ok st2 => exact ih st2

theorem str_empty_append (s : String) : "" ++ s = s := by
  apply String.ext
  simp [String.data_append]

/-- SAX events of one `<Contents><Key>k</Key></Contents>` node. -/
def contentsEvents (k : String) : List SaxEvent :=
  [.start "Contents", .start "Key", .text k, .endElem, .endElem]

/-- The effect of one Contents node on the request state: the current
object becomes the freshly parsed key and the object is emitted. -/
def c5Collect (s : ListObjectsState) (k : String) : ListObjectsState :=
  { s with current := { key := k }, objects := s.objects ++ [{ key := k }] }

theorem c5_objBlock (w : Bool) (st : ListObjectsState) (k : String)
    (hw : st.m_isWalrus = w)
    (hstack : st.stack = if w then [.last, .last] else [.last]) :
    listObjectsRun st (contentsEvents k) = .ok (c5Collect st k) := by
  cases w <;>
    (simp only [if_true, if_false, Bool.false_eq_true, Bool.true_eq_false] at hstack
     simp [contentsEvents, listObjectsRun, listObjectsStep,
       listObjectsStartXmlElementImpl, isObjectNode, getResponseNode,
       listObjectsSetXmlValueImpl, errorEnvelopeAssign, listObjectsOnSetXmlValue,
       listObjectsEndXmlElementImpl, c5Collect, hstack, hw, str_empty_append])

theorem c5_objBlocks (w : Bool) (st : ListObjectsState) (keys : List String)
    (hw : st.m_isWalrus = w)
    (hstack : st.stack = if w then [.last, .last] else [.last]) :
    listObjectsRun st ((keys.map contentsEvents).flatten)
      = .ok (keys.foldl c5Collect st) := by
  induction keys generalizing st with
  | nil => simp [listObjectsRun]
  | cons k ks ih =>
    simp only [List.map_cons, List.flatten_cons, List.foldl_cons]
    rw [listObjectsRun_append, c5_objBlock w st k hw hstack]
    exact ih (c5Collect st k) (by simp [c5Collect, hw]) (by simp [c5Collect, hstack])

theorem c5_foldl_m_nextMarker (st : ListObjectsState) (keys : List String) :
    (keys.foldl c5Collect st).m_nextMarker = st.m_nextMarker := by
  induction keys generalizing st with
  | nil => rfl
  | cons k ks ih => simp [List.foldl_cons, ih, c5Collect]

theorem c5_foldl_m_isWalrus (st : ListObjectsState) (keys : List String) :
    (keys.foldl c5Collect st).m_isWalrus = st.m_isWalrus := by
  induction keys generalizing st with
  | nil => rfl
  | cons k ks ih => simp [List.foldl_cons, ih, c5Collect]

theorem c5_foldl_stack (st : ListObjectsState) (keys : List String) :
    (keys.foldl c5Collect st).stack = st.stack := by
  induction keys generalizing st with
  | nil => rfl
  | cons k ks ih => simp [List.foldl_cons, ih, c5Collect]

theorem c5_foldl_current (st : ListObjectsState) (keys : List String) :
    (keys.foldl c5Collect st).current
      = if keys.isEmpty then st.current else { key := keys.getLastD "" } := by
  induction keys generalizing st with
  | nil => rfl
  | cons k ks ih =>
    simp only [List.foldl_cons, ih, c5Collect]
    cases ks with
    | nil => simp
    | cons k2 ks2 => simp [List.getLastD_cons]

theorem c5_foldl_objects (st : ListObjectsState) (keys : List String) :
    (keys.foldl c5Collect st).objects
      = st.objects ++ keys.map (fun k => ({ key := k } : S3Object)) := by
  induction keys generalizing st with
  | nil => simp
  | cons k ks ih => simp [List.foldl_cons, ih, c5Collect]

/-- The canonical shape of a list-objects response: optional NextMarker
element, then the Contents nodes (nested one level deeper on Walrus, as
the parser expects them). -/
def listEventsShape (w : Bool) (nm : Option String) (keys : List String) :
    List SaxEvent :=
  [.start "ListBucketResult"]
  ++ (match nm with
      | some m => [.start "NextMarker", .text m, .endElem]
      | none => [])
  ++ (if w then [.start "ListEntries"] else [])
  ++ (keys.map contentsEvents).flatten
  ++ (if w then [.endElem] else [])
  ++ [.endElem]

theorem c5_foldl_details (st : ListObjectsState) (keys : List String) :
    (keys.foldl c5Collect st).details = st.details := by
  induction keys generalizing st with
  | nil => rfl
  | cons k ks ih => simp [List.foldl_cons, ih, c5Collect]

theorem c5_foldl_m_prefixStr (st : ListObjectsState) (keys : List String) :
    (keys.foldl c5Collect st).m_prefixStr = st.m_prefixStr := by
  induction keys generalizing st with
  | nil => rfl
  | cons k ks ih => simp [List.foldl_cons, ih, c5Collect]

/-- The parser state after consuming a canonical response shape. -/
def c5FinalState (w : Bool) (nmVal : String) (keys : List String) :
    ListObjectsState :=
  { stack := [], m_isWalrus := w, m_nextMarker := nmVal,
    current := if keys.isEmpty then {} else { key := keys.getLastD "" },
    objects := keys.map (fun k => ({ key := k } : S3Object)) }

/-- C5 amended: for every list-objects response (with or without a
NextMarker element and with any sequence of keys), on S3 and Walrus
alike, the pagination marker is the NextMarker value when that element
is present with a non-empty value, and otherwise the last key seen;
the Walrus flag does not change this choice (the spec reserved the
last-key fallback to Walrus only). -/
theorem c5_nextMarker_amended (w : Bool) (nm : Option String) (keys : List String) :
    listObjectsRun { m_isWalrus := w } (listEventsShape w nm keys)
        = .ok (c5FinalState w (nm.getD "") keys)
      ∧ nextMarker (c5FinalState w (nm.getD "") keys)
          = (if (nm.getD "").isEmpty then keys.getLastD "" else nm.getD "")
      ∧ (c5FinalState w (nm.getD "") keys).objects.map S3Object.key = keys := by
  refine ⟨?_, ?_, ?_⟩
  · cases w <;> rcases nm with _ | m <;>
      (simp only [listEventsShape, if_true, if_false, List.nil_append,
        List.append_nil, List.cons_append, List.singleton_append, List.append_assoc]
       simp only [listObjectsRun, listObjectsStep, listObjectsStartXmlElementImpl,
         listObjectsSetXmlValueImpl, listObjectsOnSetXmlValue, errorEnvelopeAssign,
         listObjectsEndXmlElementImpl, isObjectNode, getResponseNode]
       simp
       rw [listObjectsRun_append]
       rw [c5_objBlocks _ _ keys rfl rfl]
       simp [listObjectsRun, listObjectsStep, listObjectsEndXmlElementImpl,
         isObjectNode, c5_foldl_stack, c5_foldl_m_isWalrus, c5FinalState,
         c5_foldl_details, c5_foldl_current, c5_foldl_m_prefixStr,
         c5_foldl_m_nextMarker, c5_foldl_objects])
  · rw [nextMarker, c5FinalState]
    by_cases hk : keys.isEmpty
    · simp [hk]
      cases keys with
      | nil => simp
      | cons a l => simp at hk
    · simp [hk]
  · simp only [c5FinalState, List.map_map]
    have : (S3Object.key ∘ fun k => ({ key := k } : S3Object)) = id := by
      funext k
      rfl
    rw [this, List.map_id]

/-! ### Request headers and the Range header (s3conn.cpp lines 508-598)

`setRequestHeaders` appends "key: value" headers in a fixed order,
skipping a header when its value pointer is null; the Range header is
appended exactly when low <= high, with the value
"bytes=" << low << "-" << high - 1 where low and high are size_t
(so high - 1 wraps modulo 2^64 when high = 0).  `pendGet`
(lines 2827-2864) requests the byte range [offset, offset + size). -/

/-- size_t subtraction of one. -/
def sizeSub1 (h : Nat) : Nat :=
  (h + (SIZE_T_MOD - 1)) % SIZE_T_MOD

/-- The header list built by `setRequestHeaders` (keys and order as in
the source; a `none` value means the header is skipped, exactly like a
null pointer argument). -/
def setRequestHeadersList (contentMd5 contentType : Option String)
    (date : String) (makePublic srvEncrypt : Bool) (authorization : String)
    (low high : Nat) : List (String × String) :=
  (match contentMd5 with
   | some v => [("Content-MD5", v)]
   | none => [])
  ++ (match contentType with
      | some v => [("Content-Type", v)]
      | none => [])
  ++ [("Date", date)]
  ++ (if makePublic then [("x-amz-acl", "public-read")] else [])
  ++ (if srvEncrypt then [("x-amz-server-side-encryption", "AES256")] else [])
  ++ [("Accept", "")]
  ++ (if low ≤ high then
        [("Range", "bytes=" ++ Nat.repr low ++ "-" ++ Nat.repr (sizeSub1 high))]
      else [])
  ++ [("Authorization", authorization), ("Connection", "Keep-Alive"),
      ("Expect", ""), ("Transfer-Encoding", "")]

theorem sizeSub1_of_pos (h : Nat) (h1 : 1 ≤ h) (h2 : h < SIZE_T_MOD) :
    sizeSub1 h = h - 1 := by
  rw [sizeSub1]
  have hM : 0 < SIZE_T_MOD := by norm_num [SIZE_T_MOD]
  have : h + (SIZE_T_MOD - 1) = (h - 1) + SIZE_T_MOD := by omega
  rw [this, Nat.add_mod_right, Nat.mod_eq_of_lt (by omega)]

/-- C6: a GET with the byte range [offset, offset + size) requested via
pendGet (a non-empty range with no size_t overflow) carries the header
"Range: bytes=offset-(offset+size-1)" with both numbers in decimal; and
a request with no byte range (the default low/high arguments satisfy
high < low, since the source emits the header whenever low <= high and
the spec emits no Range header by default) carries no Range header. -/
theorem c6_range_header (contentMd5 contentType : Option String) (date : String)
    (makePublic srvEncrypt : Bool) (authorization : String)
    (offset size : Nat) (hsz : 1 ≤ size) (hov : offset + size < SIZE_T_MOD) :
    (("Range", "bytes=" ++ Nat.repr offset ++ "-" ++ Nat.repr (offset + size - 1))
        ∈ setRequestHeadersList contentMd5 contentType date makePublic srvEncrypt
            authorization offset (offset + size)) ∧
    (∀ low high v, high < low →
      ("Range", v) ∉ setRequestHeadersList contentMd5 contentType date makePublic
          srvEncrypt authorization low high) := by
  constructor
  · have hr : sizeSub1 (offset + size) = offset + size - 1 :=
      sizeSub1_of_pos (offset + size) (by omega) hov
    simp only [setRequestHeadersList, List.mem_append]
    refine Or.inl (Or.inr ?_)
    rw [if_pos (by omega : offset ≤ offset + size), hr]
    simp
  · intro low high v hlh
    simp only [setRequestHeadersList, List.mem_append]
    rw [if_neg (by omega : ¬ low ≤ high)]
    rcases contentMd5 with _ | cm <;> rcases contentType with _ | ct <;>
      cases makePublic <;> cases srvEncrypt <;> simp

/-- Witness for C6 at a concrete pendGet range [10, 14) and a concrete
default-argument call. -/
theorem c6_range_header_witness :
    (("Range", "bytes=" ++ Nat.repr 10 ++ "-" ++ Nat.repr (10 + 4 - 1))
        ∈ setRequestHeadersList none (some "application/octet-stream")
            "Mon, 01 Jan 2024 00:00:00 GMT" false false " AWS a:b" 10 (10 + 4)) ∧
    (∀ low high v, high < low →
      ("Range", v) ∉ setRequestHeadersList none (some "application/octet-stream")
          "Mon, 01 Jan 2024 00:00:00 GMT" false false " AWS a:b" low high) :=
  c6_range_header none (some "application/octet-stream")
    "Mon, 01 Jan 2024 00:00:00 GMT" false false " AWS a:b" 10 4
    (by norm_num) (by norm_num [SIZE_T_MOD])

/-! ### waitAny (s3conn.cpp lines 2322-2365)

`S3Connection::waitAny` first raises TooManyConnections when the count
exceeds the platform event-wait limit (`EventSync::c_maxEventCount`
from the platform layer, not under src/; modelled as the parameter
`maxEventCount`).  It then scans the connections rotated by
`startFrom`, returning the first index whose connection already
completed; otherwise it blocks on the rotated completion events.
Modelled from the spec: the platform primitive `EventSync::waitAny`
returns the slot of a signalled event or -1 on timeout, and a pump
signals the event exactly when the pended operation has completed; it
is modelled by the oracle `eventWaitRes` (slot into the rotated event
array, none on timeout) with that signalling property taken as a
hypothesis.  Each connection is abstracted by whether it has
completed. -/

/-- The rotated scan of the first loop of `waitAny`: the first rotated
index (i + startFrom) % count whose connection has completed. -/
def scanCompletedIdx (completed : List Bool) (startFrom : Nat) : Option Nat :=
  ((List.range completed.length).find?
      (fun i => completed.getD ((i + startFrom) % completed.length) false)).map
    (fun i => (i + startFrom) % completed.length)

/-- `S3Connection::waitAny`. -/
def waitAny (maxEventCount : Nat) (completed : List Bool) (startFrom : Nat)
    (eventWaitRes : Option Nat) : Except S3Error Int :=
  if completed.length > maxEventCount then .error .tooManyConnections
  else
    match scanCompletedIdx completed startFrom with
    | some idx => .ok (idx : Int)
    | none =>
        match eventWaitRes with
        | none => .ok (-1)
        | some res => .ok (((res + startFrom) % completed.length : Nat) : Int)

/-- C7: waitAny raises TooManyConnections when the connection count
exceeds the platform event-wait limit; it returns -1 when no
connection has completed and the event wait times out; and every
non-negative index it returns is a rotated-scan index
(j + startFrom) % count of a connection that has completed.  The
hypothesis is the signalling property of the platform event primitive
(an event wait result denotes a completed connection). -/
theorem c7_waitAny_spec (maxEventCount : Nat) (completed : List Bool)
    (startFrom : Nat) (eventWaitRes : Option Nat)
    (hevent : ∀ res, eventWaitRes = some res →
      completed.getD ((res + startFrom) % completed.length) false = true) :
    (completed.length > maxEventCount →
      waitAny maxEventCount completed startFrom eventWaitRes
        = .error .tooManyConnections) ∧
    (completed.length ≤ maxEventCount → (∀ b ∈ completed, b = false) →
      eventWaitRes = none →
      waitAny maxEventCount completed startFrom eventWaitRes = .ok (-1)) ∧
    (∀ i : Int,
      waitAny maxEventCount completed startFrom eventWaitRes = .ok i → 0 ≤ i →
      (∃ j, j < completed.length ∧ i = (((j + startFrom) % completed.length : Nat) : Int)) ∧
      completed.getD i.toNat false = true) := by
  refine ⟨?_, ?_, ?_⟩
  · intro hgt
    rw [waitAny.eq_def, if_pos hgt]
  · intro hle hfalse hnone
    rw [waitAny.eq_def, if_neg (by omega)]
    have hscan : scanCompletedIdx completed startFrom = none := by
      rw [scanCompletedIdx]
      rw [List.find?_eq_none.mpr]
      · rfl
      · intro i hi
        simp only [Bool.not_eq_true]
        rcases h : completed.getD ((i + startFrom) % completed.length) false with _ | _
        · rfl
        · exfalso
          have hlen : completed.length ≠ 0 := by
            intro h0
            rw [List.eq_nil_of_length_eq_zero h0] at h
            simp [List.getD] at h
          have hm : (i + startFrom) % completed.length < completed.length :=
            Nat.mod_lt _ (Nat.pos_of_ne_zero hlen)
          rw [List.getD_eq_getElem _ _ hm] at h
          have := hfalse _ (List.getElem_mem hm)
          rw [this] at h
          exact Bool.false_ne_true h
    rw [hscan, hnone]
  · intro i hok hnn
    rw [waitAny.eq_def] at hok
    by_cases hgt : completed.length > maxEventCount
    · rw [if_pos hgt] at hok
      exact absurd hok (by simp)
    · rw [if_neg hgt] at hok
      rcases hscan : scanCompletedIdx completed startFrom with _ | idx
      · rw [hscan] at hok
        rcases hev : eventWaitRes with _ | res
        · rw [hev] at hok
          simp only [Except.ok.injEq] at hok
          omega
        · rw [hev] at hok
          simp only [Except.ok.injEq] at hok
          have hres := hevent res hev
          have hlen : completed.length ≠ 0 := by
            intro h0
            rw [List.eq_nil_of_length_eq_zero h0] at hres
            simp [List.getD] at hres
          refine ⟨⟨res % completed.length, Nat.mod_lt _ (Nat.pos_of_ne_zero hlen), ?_⟩, ?_⟩
          · rw [← hok, Nat.mod_add_mod]
          · rw [← hok]
            simpa using hres
      · rw [hscan] at hok
        simp only [Except.ok.injEq] at hok
        rw [scanCompletedIdx] at hscan
        rcases hfind : (List.range completed.length).find?
            (fun i => completed.getD ((i + startFrom) % completed.length) false)
          with _ | j
        · rw [hfind] at hscan
          simp at hscan
        · rw [hfind] at hscan
          simp at hscan
          have hjlt : j < completed.length := by
            have := List.mem_range.mp (List.mem_of_find?_eq_some hfind)
            exact this
          have hjtrue := List.find?_some hfind
          refine ⟨⟨j, hjlt, ?_⟩, ?_⟩
          · rw [← hok, hscan]
          · rw [← hok, ← hscan]
            simpa using hjtrue

/-- Witness for C7 at a concrete pool: two connections, the second
completed, scan started from index 1, no event wait needed. -/
theorem c7_waitAny_spec_witness :
    (([false, true] : List Bool).length > 64 →
      waitAny 64 [false, true] 1 none = .error .tooManyConnections) ∧
    (([false, true] : List Bool).length ≤ 64 →
      (∀ b ∈ ([false, true] : List Bool), b = false) → (none : Option Nat) = none →
      waitAny 64 [false, true] 1 none = .ok (-1)) ∧
    (∀ i : Int, waitAny 64 [false, true] 1 none = .ok i → 0 ≤ i →
      (∃ j, j < ([false, true] : List Bool).length ∧
        i = (((j + 1) % ([false, true] : List Bool).length : Nat) : Int)) ∧
      ([false, true] : List Bool).getD i.toNat false = true) :=
  c7_waitAny_spec 64 [false, true] 1 none (fun _ h => nomatch h)

/-! ### Error summary wrapping (s3conn.cpp lines 53, 2207-2228, 3536-3546)

`throwSummary` is called from the catch-all of every top-level
operation.  It rethrows std::bad_alloc unchanged, wraps any other
std::exception in an S3Exception with the errS3Summary format
"S3 %s for \x27%s\x27 failed. %s" applied to the operation name, the key
and the inner message, and wraps a non-standard exception the same way
with the errUnexpected message.  S3Exception formats its message with
vsnprintf into a 512-byte buffer passing size 511, so at most 510
characters are kept (the bytes here are ASCII, one character each). -/

/-- An underlying failure reaching the catch-all of a top-level
operation: std::bad_alloc, a std::exception with its what() message, or
a non-standard exception. -/
inductive InnerFailure where
  | badAlloc
  | exc (msg : String)
  | nonStd
deriving DecidableEq, Repr

/-- The errUnexpected message of s3conn.cpp line 47. -/
def errUnexpectedMsg : String := "Unexpected error."

/-- A single-quote character, written by code point to keep source
quoting simple. -/
def squote : String := String.singleton (Char.ofNat 39)

/-- The errS3Summary format applied by S3Exception: the vsnprintf
result is truncated to 510 characters by the 512-byte message buffer
(size argument 511, one byte reserved for the terminator). -/
def errS3SummaryFmt (op key inner : String) : String :=
  String.mk (("S3 " ++ op ++ " for " ++ squote ++ key ++ squote
    ++ " failed. " ++ inner).data.take 510)

/-- `throwSummary`: the failure raised by a top-level operation given
the underlying failure. -/
def throwSummary (op key : String) : InnerFailure → InnerFailure
  | .badAlloc => .badAlloc
  | .exc m => .exc (errS3SummaryFmt op key m)
  | .nonStd => .exc (errS3SummaryFmt op key errUnexpectedMsg)

/-- C8 counterexample: an out-of-memory failure (std::bad_alloc, whose
what() is "std::bad_alloc") underneath a put is rethrown unchanged, not
wrapped in the "S3 put for \x27k\x27 failed. std::bad_alloc" summary the
claim requires, so "every underlying failure ... raises a single
summary error" is false. -/
theorem c8_throwSummary_counterexample :
    throwSummary "put" "k" .badAlloc = .badAlloc ∧
    InnerFailure.badAlloc ≠ .exc (errS3SummaryFmt "put" "k" "std::bad_alloc") := by
  exact ⟨rfl, by simp⟩

/-- C8 amended: every underlying failure other than out-of-memory is
wrapped in a single summary error of the form
"S3 <op> for \x27<key>\x27 failed. <inner>" (truncated to the 512-byte
exception buffer, which keeps the form intact whenever the total length
is at most 510 characters); a non-standard failure is wrapped with
"Unexpected error." as the inner message; out-of-memory propagates
unchanged (the taxonomy carries it out-of-band). -/
theorem c8_throwSummary_amended (op key m : String)
    (hlen : ("S3 " ++ op ++ " for " ++ squote ++ key ++ squote
      ++ " failed. " ++ m).length ≤ 510) :
    throwSummary op key (.exc m)
        = .exc ("S3 " ++ op ++ " for " ++ squote ++ key ++ squote
            ++ " failed. " ++ m) ∧
    throwSummary op key .nonStd = .exc (errS3SummaryFmt op key errUnexpectedMsg) ∧
    throwSummary op key .badAlloc = .badAlloc := by
  refine ⟨?_, rfl, rfl⟩
  show InnerFailure.exc (errS3SummaryFmt op key m) = _
  rw [errS3SummaryFmt]
  rw [List.take_of_length_le (by exact hlen)]

/-- Witness for C8 amended at concrete operation, key and inner
message. -/
theorem c8_throwSummary_amended_witness :
    throwSummary "put" "k" (.exc "timed out")
        = .exc ("S3 " ++ "put" ++ " for " ++ squote ++ "k" ++ squote
            ++ " failed. " ++ "timed out") ∧
    throwSummary "put" "k" .nonStd = .exc (errS3SummaryFmt "put" "k" errUnexpectedMsg) ∧
    throwSummary "put" "k" .badAlloc = .badAlloc :=
  c8_throwSummary_amended "put" "k" "timed out" (by decide)

end Webstor